import Mathlib

/-!
Verification of the Memory-Card-Game game-logic slice.

Shallow embedding of the TypeScript sources:
  * `src/types` (data model: `Card`, `Difficulty`, `HighScore`, `PlayerStats`)
  * `src/utils/constants.ts` (`GAME_CONFIGS`, `SCORING`, `PERFECT_MOVES`, `MAX_HIGH_SCORES`)
  * `src/utils/gameHelpers.ts` (`shuffleArray`, `generateCards`, `checkCardsMatch`,
    `calculateScore`, `isGameWon`)
  * `src/utils/localStorage.ts` (`saveHighScores`, `addHighScore`, `isHighScore`,
    `updatePlayerStats`)
  * `src/hooks/useGameLogic.ts` (`canFlipCard`, `handleCardClick`, `handleGameCompletion`,
    the completion-check effect and the auto-resolve-last-pair effect)

Modelling conventions: JavaScript numbers that only ever hold integers are
`Nat`/`Int`; the one fractional quantity (`averageTime`, and the argument of
`Math.round`) is `ℚ`; `Math.random()` draws are an injected stream
`rnd : Nat → Nat` (the value `Math.floor(Math.random() * (i+1))` becomes
`rnd i % (i+1)`); `generateId()` results are an injected supply
`ids : Nat → String`; `localStorage` contents are threaded explicitly as
function arguments / state fields; `setTimeout` callbacks are collapsed into
the state transition they eventually perform, or returned as an explicit
pending-action value.
-/

open scoped List

/-- `Difficulty` from `src/types`: EASY | MEDIUM | HARD. -/
inductive Difficulty where
  | EASY
  | MEDIUM
  | HARD
deriving DecidableEq, Repr

/-- `Card` interface from `src/types`. -/
structure Card where
  id : String
  value : String
  imageUrl : Option String
  isFlipped : Bool
  isMatched : Bool
  pairId : String
deriving DecidableEq, Repr

/-- `GameConfig` from `src/types`. -/
structure GameConfig where
  rows : Nat
  columns : Nat
  totalCards : Nat
  timeLimit : Option Nat
deriving DecidableEq, Repr

/-- `GAME_CONFIGS` from `src/utils/constants.ts`. -/
def GAME_CONFIGS : Difficulty → GameConfig
  | .EASY => { rows := 2, columns := 4, totalCards := 8, timeLimit := none }
  | .MEDIUM => { rows := 3, columns := 4, totalCards := 12, timeLimit := some 120 }
  | .HARD => { rows := 4, columns := 5, totalCards := 20, timeLimit := some 180 }

namespace SCORING

/-- `SCORING.MATCH_BONUS` from `src/utils/constants.ts`. -/
def MATCH_BONUS : Int := 100

/-- `SCORING.TIME_BONUS_MULTIPLIER` from `src/utils/constants.ts`. -/
def TIME_BONUS_MULTIPLIER : Int := 10

/-- `SCORING.PERFECT_GAME_BONUS` from `src/utils/constants.ts`. -/
def PERFECT_GAME_BONUS : Int := 500

/-- `SCORING.MOVE_PENALTY` from `src/utils/constants.ts`. -/
def MOVE_PENALTY : Int := 5

end SCORING

/-- `PERFECT_MOVES` from `src/utils/constants.ts`. -/
def PERFECT_MOVES : Difficulty → Nat
  | .EASY => 8
  | .MEDIUM => 12
  | .HARD => 20

/-- `MAX_HIGH_SCORES` from `src/utils/constants.ts`. -/
def MAX_HIGH_SCORES : Nat := 10

/-- `checkCardsMatch` from `src/utils/gameHelpers.ts`. -/
def checkCardsMatch (card1 card2 : Card) : Bool :=
  card1.pairId == card2.pairId && card1.id != card2.id

/-- `isGameWon` from `src/utils/gameHelpers.ts`:
`cards.length > 0 && cards.every((card) => card.isMatched)`. -/
def isGameWon (cards : List Card) : Bool :=
  cards.length > 0 && cards.all (fun card => card.isMatched)

/-- `calculateScore` from `src/utils/gameHelpers.ts`.  All arithmetic on the
running score is exact integer arithmetic in the source (the two
`Math.floor` applications act on products of integers), so `Int` is a
faithful carrier. -/
def calculateScore (moves timeElapsed : Nat) (difficulty : Difficulty)
    (matchedPairs : Nat) : Int :=
  let config := GAME_CONFIGS difficulty
  let totalPairs := config.totalCards / 2
  let perfectMoves := PERFECT_MOVES difficulty
  let score : Int := (matchedPairs : Int) * SCORING.MATCH_BONUS
  let score : Int :=
    if matchedPairs = totalPairs then
      let score := score + 1000
      let score :=
        if moves = perfectMoves then score + SCORING.PERFECT_GAME_BONUS else score
      let score :=
        match config.timeLimit with
        | some timeLimit =>
            let timeRemaining : Int := (timeLimit : Int) - (timeElapsed : Int)
            if timeRemaining > 0 then
              score + timeRemaining * SCORING.TIME_BONUS_MULTIPLIER
            else score
        | none =>
            let timeBonusThreshold : Nat := 120
            if timeElapsed < timeBonusThreshold then
              score + ((timeBonusThreshold : Int) - (timeElapsed : Int)) *
                SCORING.TIME_BONUS_MULTIPLIER
            else score
      let extraMoves : Int := (moves : Int) - (perfectMoves : Int)
      if extraMoves > 0 then score - extraMoves * SCORING.MOVE_PENALTY else score
    else score
  max 0 score

/-- `HighScore` interface from `src/types`. -/
structure HighScore where
  id : String
  playerName : Option String
  moves : Nat
  time : Nat
  difficulty : Difficulty
  date : String
  score : Int
deriving DecidableEq, Repr

/-- The comparator passed to `Array.prototype.sort` in `saveHighScores`
(`src/utils/localStorage.ts`), rendered as a boolean "a sorts no later than b"
relation: `(a, b) => b.score - a.score`, ties broken by `a.time - b.time`. -/
def highScoreLE (a b : HighScore) : Bool :=
  if a.score == b.score then a.time ≤ b.time else b.score < a.score

/-- `saveHighScores` from `src/utils/localStorage.ts`: sort score-descending /
time-ascending and keep the first `MAX_HIGH_SCORES` entries.  `Array.prototype.sort`
is a stable comparison sort; `List.mergeSort` is the stable sort model.  The
returned list is the value written to storage. -/
def saveHighScores (scores : List HighScore) : List HighScore :=
  (List.mergeSort scores highScoreLE).take MAX_HIGH_SCORES

/-- `addHighScore` from `src/utils/localStorage.ts`, with the loaded storage
contents passed explicitly: append the new entry and re-save. -/
def addHighScore (currentScores : List HighScore) (newScore : HighScore) :
    List HighScore :=
  saveHighScores (currentScores ++ [newScore])

/-- `isHighScore` from `src/utils/localStorage.ts`, with the loaded storage
contents passed explicitly.  When the list already holds `MAX_HIGH_SCORES`
entries the candidate must beat `highScores[highScores.length - 1]`; the
`none` case of `getLast?` is unreachable there (length ≥ 10 > 0). -/
def isHighScore (highScores : List HighScore) (score : Int) : Bool :=
  if highScores.length < MAX_HIGH_SCORES then
    true
  else
    match highScores.getLast? with
    | some lowestHighScore => score > lowestHighScore.score
    | none => false

/-- `PlayerStats` interface from `src/types`.  `bestTime`/`bestMoves` start at
`Infinity` in the source, modelled as `⊤ : WithTop Nat`; `averageTime` is the
one genuinely fractional number, modelled as `ℚ`. -/
structure PlayerStats where
  gamesPlayed : Nat
  gamesWon : Nat
  bestTime : WithTop Nat
  bestMoves : WithTop Nat
  totalMoves : Nat
  averageTime : ℚ
  lastPlayed : String
deriving DecidableEq

/-- `updatePlayerStats` from `src/utils/localStorage.ts`, with the loaded
stats and the current date passed explicitly; returns the stats written back. -/
def updatePlayerStats (currentStats : PlayerStats) (moves time : Nat)
    (isWon : Bool) (now : String) : PlayerStats :=
  { gamesPlayed := currentStats.gamesPlayed + 1
    gamesWon := if isWon then currentStats.gamesWon + 1 else currentStats.gamesWon
    bestTime := if isWon then min currentStats.bestTime (time : WithTop Nat)
                else currentStats.bestTime
    bestMoves := if isWon then min currentStats.bestMoves (moves : WithTop Nat)
                 else currentStats.bestMoves
    totalMoves := currentStats.totalMoves + moves
    averageTime := (currentStats.averageTime * currentStats.gamesPlayed + time) /
      (currentStats.gamesPlayed + 1)
    lastPlayed := now }

/-- The state owned by `useGameLogic` (`src/hooks/useGameLogic.ts`): the
`useState` cells, the `gameCompleteTriggeredRef` one-shot flag, the timer's
elapsed seconds and running flag, and — threaded explicitly instead of living
in `localStorage` / the completion callback — the stored leaderboard, the
stored player stats, whether a game snapshot is currently saved, and a counter
of scheduled `onGameComplete` notifications. -/
structure GameSession where
  cards : List Card
  flippedCards : List Card
  matchedPairs : Nat
  moves : Nat
  score : Int
  isGameStarted : Bool
  isGameComplete : Bool
  isGamePaused : Bool
  isProcessing : Bool
  gameCompleteTriggered : Bool
  time : Nat
  timerRunning : Bool
  difficulty : Difficulty
  storedHighScores : List HighScore
  storedStats : PlayerStats
  hasSavedState : Bool
  completionNotifications : Nat
deriving DecidableEq

/-- `totalPairs` in `useGameLogic`: `cards.length / 2`. -/
def totalPairs (s : GameSession) : Nat :=
  s.cards.length / 2

/-- JavaScript `Math.round` on the non-negative rationals produced by
`completionPercentage`: round half up, `⌊q + 1/2⌋`. -/
def mathRound (q : ℚ) : Int :=
  ⌊q + 1 / 2⌋

/-- `completionPercentage` in `useGameLogic`:
`totalPairs > 0 ? Math.round((matchedPairs / totalPairs) * 100) : 0`. -/
def completionPercentage (s : GameSession) : Int :=
  if totalPairs s > 0 then
    mathRound (((s.matchedPairs : ℚ) / (totalPairs s : ℚ)) * 100)
  else 0

/-- `startGame` from `useGameLogic`: sets the started flag, clears the paused
flag and starts the timer. -/
def startGame (s : GameSession) : GameSession :=
  { s with isGameStarted := true, isGamePaused := false, timerRunning := true }

/-- `canFlipCard` from `useGameLogic`. -/
def canFlipCard (s : GameSession) (card : Card) : Bool :=
  if !s.isGameStarted || s.isGameComplete || s.isGamePaused || s.isProcessing then
    false
  else if card.isMatched || card.isFlipped then
    false
  else if s.flippedCards.length ≥ 2 then
    false
  else
    true

/-- `flipCard` from `useGameLogic`: set `isFlipped` on the card with the given id. -/
def flipCard (s : GameSession) (cardId : String) : GameSession :=
  { s with cards := s.cards.map (fun card =>
      if card.id == cardId then { card with isFlipped := true } else card) }

/-- `unflipCards` from `useGameLogic`: clear `isFlipped` on the given ids. -/
def unflipCards (s : GameSession) (cardIds : List String) : GameSession :=
  { s with cards := s.cards.map (fun card =>
      if cardIds.contains card.id then { card with isFlipped := false } else card) }

/-- `markCardsAsMatched` from `useGameLogic`: set `isMatched` and `isFlipped`
on the given ids. -/
def markCardsAsMatched (s : GameSession) (cardIds : List String) : GameSession :=
  { s with cards := s.cards.map (fun card =>
      if cardIds.contains card.id then { card with isMatched := true, isFlipped := true }
      else card) }

/-- `handleMatch` from `useGameLogic`, acting on the state in which the click
that revealed the second card has already incremented `moves` (the source
closure compensates for its stale capture by computing `moves + 1` and
`matchedPairs + 1`; sequentially those are exactly `s.moves` and
`s.matchedPairs + 1`). -/
def handleMatch (s : GameSession) (card1 card2 : Card) : GameSession :=
  let s := markCardsAsMatched s [card1.id, card2.id]
  let newMatchedPairs := s.matchedPairs + 1
  let newScore := calculateScore s.moves s.time s.difficulty newMatchedPairs
  { s with matchedPairs := newMatchedPairs, flippedCards := [],
           score := newScore, isProcessing := false }

/-- `handleNoMatch` from `useGameLogic` (the body of its delayed callback):
unflip both cards, clear `flippedCards`, clear the processing flag. -/
def handleNoMatch (s : GameSession) (card1 card2 : Card) : GameSession :=
  let s := unflipCards s [card1.id, card2.id]
  { s with flippedCards := [], isProcessing := false }

/-- The comparison scheduled by `handleCardClick` after the second flip
(`setTimeout(..., ANIMATION_DURATION.CARD_FLIP)`), collapsed to the state
transition it performs. -/
def resolveComparison (s : GameSession) (firstCard secondCard : Card) : GameSession :=
  if checkCardsMatch firstCard secondCard then
    handleMatch s firstCard secondCard
  else
    handleNoMatch s firstCard secondCard

/-- `handleCardClick` from `useGameLogic`.  Returns the synchronously updated
state plus, when a second card was just flipped, the pair handed to the
scheduled comparison callback (`none` when no comparison was scheduled). -/
def handleCardClick (s : GameSession) (cardId : String) :
    GameSession × Option (Card × Card) :=
  match s.cards.find? (fun c => c.id == cardId) with
  | none => (s, none)
  | some card =>
    if !canFlipCard s card then
      (s, none)
    else
      let s := if !s.isGameStarted then startGame s else s
      let s := flipCard s cardId
      let newFlippedCards := s.flippedCards ++ [card]
      let s := { s with flippedCards := newFlippedCards }
      if newFlippedCards.length == 2 then
        let s := { s with isProcessing := true, moves := s.moves + 1 }
        match newFlippedCards with
        | [firstCard, secondCard] => (s, some (firstCard, secondCard))
        | _ => (s, none)
      else
        (s, none)

/-- `handleGameCompletion` from `useGameLogic`: one-shot-guarded completion
transition.  `newId` stands for the `generateId()` result and `now` for
`new Date().toISOString()`.  Scheduling the `onGameComplete` callback is
modelled by incrementing `completionNotifications`. -/
def handleGameCompletion (newId now : String) (s : GameSession) : GameSession :=
  if s.gameCompleteTriggered then s
  else
    let s := { s with gameCompleteTriggered := true, isGameComplete := true,
                      timerRunning := false }
    let finalScore := calculateScore s.moves s.time s.difficulty s.matchedPairs
    let s := { s with score := finalScore }
    let isNewHighScore := isHighScore s.storedHighScores finalScore
    let highScore : HighScore :=
      { id := newId, playerName := none, moves := s.moves, time := s.time,
        difficulty := s.difficulty, date := now, score := finalScore }
    let s :=
      if isNewHighScore then
        { s with storedHighScores := addHighScore s.storedHighScores highScore }
      else s
    let s := { s with storedStats := updatePlayerStats s.storedStats s.moves s.time true now }
    let s := { s with hasSavedState := false }
    { s with completionNotifications := s.completionNotifications + 1 }

/-- The completion-check `useEffect` in `useGameLogic`: run
`handleGameCompletion` when the game is started, not yet complete, the
one-shot flag is untriggered, the deck is non-empty and every card is matched. -/
def checkCompletion (newId now : String) (s : GameSession) : GameSession :=
  if s.isGameStarted && !s.isGameComplete && !s.gameCompleteTriggered &&
      s.cards.length > 0 && isGameWon s.cards then
    handleGameCompletion newId now s
  else s

/-- The auto-flip-last-pair `useEffect` in `useGameLogic`, with its three
`setTimeout` stages collapsed into the state they leave behind: when exactly
one pair remains and the engine is idle, flip the two unmatched cards and, if
they match, resolve them as a match (without touching `moves`). -/
def autoResolveLastPair (s : GameSession) : GameSession :=
  if s.isGameStarted && !s.isGamePaused && !s.isProcessing && !s.isGameComplete &&
      totalPairs s > 0 && totalPairs s - s.matchedPairs == 1 then
    let unmatchedCards := s.cards.filter (fun card => !card.isMatched)
    match unmatchedCards with
    | [firstCard, secondCard] =>
      let s := { s with isProcessing := true }
      let s := flipCard s firstCard.id
      let s := flipCard s secondCard.id
      if checkCardsMatch firstCard secondCard then
        let s := { s with cards := s.cards.map (fun (card : Card) =>
            if card.id == firstCard.id || card.id == secondCard.id then
              { card with isMatched := true, isFlipped := true }
            else card) }
        { s with matchedPairs := s.matchedPairs + 1, flippedCards := [],
                 isProcessing := false }
      else s
    | _ => s
  else s

/-- The loop body of `shuffleArray` (`src/utils/gameHelpers.ts`):
`[shuffled[i], shuffled[j]] = [shuffled[j], shuffled[i]]`.  Out-of-range
indices leave the list unchanged (never hit by the loop). -/
def listSwap (l : List α) (i j : Nat) : List α :=
  match l[i]?, l[j]? with
  | some a, some b => (l.set i b).set j a
  | _, _ => l

/-- The Fisher–Yates loop of `shuffleArray`, counting `i` down to 1; the
draw `Math.floor(Math.random() * (i + 1))` is modelled as `rnd i % (i + 1)`,
which ranges over exactly the same values `0..i`. -/
def fisherYatesGo (rnd : Nat → Nat) : Nat → List α → List α
  | 0, shuffled => shuffled
  | i + 1, shuffled =>
      let j := rnd (i + 1) % (i + 2)
      fisherYatesGo rnd i (listSwap shuffled (i + 1) j)

/-- `shuffleArray` from `src/utils/gameHelpers.ts`, parameterized by the
stream of `Math.random()` draws. -/
def shuffleArray (rnd : Nat → Nat) (array : List α) : List α :=
  fisherYatesGo rnd (array.length - 1) array

/-- `CardTheme` interface from `src/types`. -/
structure CardTheme where
  id : String
  name : String
  description : String
  cards : List String
  thumbnail : Option String
deriving DecidableEq, Repr

/-- `CARD_THEMES` from `src/utils/constants.ts`. -/
def CARD_THEMES : List CardTheme :=
  [ { id := "animals", name := "Animals", description := "Cute animal friends",
      cards := ["🐶", "🐱", "🐭", "🐹", "🐰", "🦊", "🐻", "🐼", "🐨", "🐯"],
      thumbnail := some "🐾" },
    { id := "fruits", name := "Fruits", description := "Fresh and colorful fruits",
      cards := ["🍎", "🍊", "🍋", "🍌", "🍉", "🍇", "🍓", "🍑", "🍒", "🥝"],
      thumbnail := some "🍎" },
    { id := "sports", name := "Sports", description := "Popular sports and activities",
      cards := ["⚽", "🏀", "🏈", "⚾", "🎾", "🏐", "🏓", "🏸", "🏒", "🏑"],
      thumbnail := some "⚽" },
    { id := "vehicles", name := "Vehicles", description := "Cars, planes and more",
      cards := ["🚗", "🚕", "🚙", "🚌", "🚎", "🏎️", "🚓", "🚑", "🚒", "🚐"],
      thumbnail := some "🚗" },
    { id := "nature", name := "Nature", description := "Beautiful nature elements",
      cards := ["🌸", "🌺", "🌻", "🌷", "🌹", "🌼", "🌿", "🍀", "🌳", "🌲"],
      thumbnail := some "🌸" },
    { id := "food", name := "Food", description := "Delicious food items",
      cards := ["🍕", "🍔", "🍟", "🌭", "🍿", "🧁", "🍰", "🍪", "🍩", "🍦"],
      thumbnail := some "🍕" },
    { id := "space", name := "Space", description := "Explore the cosmos",
      cards := ["🌍", "🌎", "🌏", "🌕", "🌖", "🌗", "🌘", "🌑", "⭐", "🌟"],
      thumbnail := some "🚀" },
    { id := "weather", name := "Weather", description := "Weather and seasons",
      cards := ["☀️", "🌤️", "⛅", "🌥️", "☁️", "🌦️", "🌧️", "⛈️", "🌩️", "❄️"],
      thumbnail := some "☀️" } ]

/-- `DEFAULT_THEME_ID` from `src/utils/constants.ts`. -/
def DEFAULT_THEME_ID : String := "animals"

/-- `getCardTheme` from `src/utils/gameHelpers.ts`: look the id up in
`CARD_THEMES`, falling back to the default theme.  The source asserts the
fallback lookup succeeds (`!`); the `getD` junk value is unreachable. -/
def getCardTheme (themeId : String) : CardTheme :=
  match CARD_THEMES.find? (fun t => t.id == themeId) with
  | some theme => theme
  | none =>
      (CARD_THEMES.find? (fun t => t.id == DEFAULT_THEME_ID)).getD
        { id := "", name := "", description := "", cards := [], thumbnail := none }

/-- The pair-building `forEach` loop of `generateCards`: for each selected
value (at position `index`), push two cards sharing `pairId = "pair-" + index`,
each with a fresh `generateId()` drawn from the supply `ids`. -/
def buildPairs (ids : Nat → String) : List String → Nat → List Card
  | [], _ => []
  | cardValue :: rest, index =>
      { id := ids (2 * index), value := cardValue, imageUrl := some cardValue,
        isFlipped := false, isMatched := false, pairId := "pair-" ++ toString index } ::
      { id := ids (2 * index + 1), value := cardValue, imageUrl := some cardValue,
        isFlipped := false, isMatched := false, pairId := "pair-" ++ toString index } ::
      buildPairs ids rest (index + 1)

/-- `generateCards` from `src/utils/gameHelpers.ts`, parameterized by the
`Math.random()` draws of its two `shuffleArray` calls (`rnd1` for the theme
values, `rnd2` for the deck) and by the `generateId()` supply `ids`.
`slice(0, totalPairs)` is `List.take totalPairs`. -/
def generateCards (rnd1 rnd2 : Nat → Nat) (ids : Nat → String)
    (difficulty : Difficulty) (themeId : String) : List Card :=
  let config := GAME_CONFIGS difficulty
  let theme := getCardTheme themeId
  let totalPairs := config.totalCards / 2
  let selectedCards := (shuffleArray rnd1 theme.cards).take totalPairs
  shuffleArray rnd2 (buildPairs ids selectedCards 0)

/-- The completion time bonus of `calculateScore` for a difficulty with no
time limit (EASY): `(120 - timeElapsed) * TIME_BONUS_MULTIPLIER` when under
the 120-second threshold, `0` otherwise. -/
def easyTimeBonus (timeElapsed : Nat) : Int :=
  if timeElapsed < 120 then
    ((120 : Int) - (timeElapsed : Int)) * SCORING.TIME_BONUS_MULTIPLIER
  else 0

/-- Shorthand for building a concrete `Card` in witness instantiations. -/
def mkCard (id value pairId : String) (flipped matched : Bool) : Card :=
  { id := id, value := value, imageUrl := some value,
    isFlipped := flipped, isMatched := matched, pairId := pairId }

/-- The freshly-loaded `PlayerStats` defaults (`loadPlayerStats` in
`src/utils/localStorage.ts`), used in witness instantiations. -/
def emptyStats : PlayerStats :=
  { gamesPlayed := 0, gamesWon := 0, bestTime := ⊤, bestMoves := ⊤,
    totalMoves := 0, averageTime := 0, lastPlayed := "2026-01-01" }

/-- A concrete NotStarted session with a fresh 4-card deck (the state after
`initializeGame`), used in witness instantiations. -/
def freshSession : GameSession :=
  { cards := [mkCard "a" "🐶" "pair-0" false false, mkCard "b" "🐶" "pair-0" false false,
              mkCard "c" "🐱" "pair-1" false false, mkCard "d" "🐱" "pair-1" false false],
    flippedCards := [], matchedPairs := 0, moves := 0, score := 0,
    isGameStarted := false, isGameComplete := false, isGamePaused := false,
    isProcessing := false, gameCompleteTriggered := false,
    time := 0, timerRunning := false, difficulty := .EASY,
    storedHighScores := [], storedStats := emptyStats,
    hasSavedState := false, completionNotifications := 0 }

/-- A concrete in-progress session with card "a" face-up, used in witness
instantiations. -/
def inProgressSession : GameSession :=
  { freshSession with
      cards := [mkCard "a" "🐶" "pair-0" true false, mkCard "b" "🐶" "pair-0" false false,
                mkCard "c" "🐱" "pair-1" false false, mkCard "d" "🐱" "pair-1" false false],
      flippedCards := [mkCard "a" "🐶" "pair-0" true false],
      isGameStarted := true, timerRunning := true, time := 5 }

/-- A concrete completed session (every card matched, completion already
triggered), used in witness instantiations. -/
def completedSession : GameSession :=
  { freshSession with
      cards := [mkCard "a" "🐶" "pair-0" true true, mkCard "b" "🐶" "pair-0" true true,
                mkCard "c" "🐱" "pair-1" true true, mkCard "d" "🐱" "pair-1" true true],
      matchedPairs := 2, moves := 4, isGameStarted := true,
      isGameComplete := true, gameCompleteTriggered := true, time := 20 }

/-- A concrete in-progress session in which exactly one pair (pair-1) remains
unmatched, used in witness instantiations. -/
def lastPairSession : GameSession :=
  { freshSession with
      cards := [mkCard "a" "🐶" "pair-0" true true, mkCard "b" "🐶" "pair-0" true true,
                mkCard "c" "🐱" "pair-1" false false, mkCard "d" "🐱" "pair-1" false false],
      matchedPairs := 1, moves := 1, isGameStarted := true,
      timerRunning := true, time := 12 }

/-- Shorthand for building a concrete `HighScore` in witness instantiations. -/
def mkEntry (id : String) (time : Nat) (score : Int) : HighScore :=
  { id := id, playerName := none, moves := 10, time := time,
    difficulty := .EASY, date := "2026-01-01", score := score }

/-- A concrete full (length-`MAX_HIGH_SCORES`) leaderboard, sorted
score-descending, used in witness instantiations. -/
def sampleLeaderboard : List HighScore :=
  [mkEntry "e1" 10 100, mkEntry "e2" 11 95, mkEntry "e3" 12 90,
   mkEntry "e4" 13 85, mkEntry "e5" 14 80, mkEntry "e6" 15 75,
   mkEntry "e7" 16 70, mkEntry "e8" 17 65, mkEntry "e9" 18 60,
   mkEntry "e10" 19 55]

/-- An injective `generateId` supply used in witness instantiations. -/
def witnessIds (n : Nat) : String :=
  String.mk (List.replicate n 'a')

/-!  Theorems. -/

/-- C5: `calculateScore` always returns an integer ≥ 0, and with moves and
time fixed it is monotone in `matchedPairs` as long as both counts stay
strictly below the difficulty's pair count (pre-completion). -/
theorem calculateScore_nonneg_and_monotone_preCompletion
    (moves timeElapsed : Nat) (difficulty : Difficulty) (mp1 mp2 : Nat)
    (h12 : mp1 ≤ mp2) (h2 : mp2 < (GAME_CONFIGS difficulty).totalCards / 2) :
    (∀ (m t : Nat) (d : Difficulty) (mp : Nat), 0 ≤ calculateScore m t d mp) ∧
      calculateScore moves timeElapsed difficulty mp1 ≤
        calculateScore moves timeElapsed difficulty mp2 := by
  constructor
  · intro m t d mp
    simp only [calculateScore]
    exact le_max_left 0 _
  · have h1 : mp1 < (GAME_CONFIGS difficulty).totalCards / 2 := lt_of_le_of_lt h12 h2
    simp only [calculateScore, if_neg (Nat.ne_of_lt h1), if_neg (Nat.ne_of_lt h2)]
    have : (mp1 : Int) * SCORING.MATCH_BONUS ≤ (mp2 : Int) * SCORING.MATCH_BONUS := by
      have : (mp1 : Int) ≤ (mp2 : Int) := Int.ofNat_le.mpr h12
      exact mul_le_mul_of_nonneg_right this (by decide)
    exact max_le_max le_rfl this

/-- C5 witness: concrete instantiation. -/
theorem calculateScore_nonneg_and_monotone_preCompletion_witness :
    (0 ≤ calculateScore 7 42 .MEDIUM 3) ∧
      calculateScore 5 30 .EASY 1 ≤ calculateScore 5 30 .EASY 2 := by
  have h := calculateScore_nonneg_and_monotone_preCompletion 5 30 .EASY 1 2
    (by decide) (by decide)
  exact ⟨h.1 7 42 .MEDIUM 3, h.2⟩

/-- C6: at EASY difficulty with all 4 pairs matched, completing in exactly
`PERFECT_MOVES EASY = 8` moves earns the `PERFECT_GAME_BONUS` of 500, while
completing in 9 moves earns no perfect-game bonus (only the move penalty
applies). -/
theorem calculateScore_perfect_game_bonus_easy (timeElapsed : Nat) :
    calculateScore 8 timeElapsed .EASY 4 =
      4 * SCORING.MATCH_BONUS + 1000 + SCORING.PERFECT_GAME_BONUS +
        easyTimeBonus timeElapsed ∧
    calculateScore 9 timeElapsed .EASY 4 =
      4 * SCORING.MATCH_BONUS + 1000 + easyTimeBonus timeElapsed -
        SCORING.MOVE_PENALTY := by
  simp only [calculateScore, easyTimeBonus, GAME_CONFIGS, PERFECT_MOVES,
    SCORING.MATCH_BONUS, SCORING.PERFECT_GAME_BONUS, SCORING.TIME_BONUS_MULTIPLIER,
    SCORING.MOVE_PENALTY]
  by_cases h : timeElapsed < 120 <;> simp [h]
  all_goals omega

/-- C10: `completionPercentage` is total on every session: with an empty deck
(`totalPairs = 0`) it is 0 rather than a division error, and with a non-empty
deck it equals the JavaScript rounding `Math.round(matchedPairs/totalPairs*100)`,
which in turn is the exact natural-number value `(200·matched + total) / (2·total)`. -/
theorem completionPercentage_total_function (s : GameSession) :
    (totalPairs s = 0 → completionPercentage s = 0) ∧
    (0 < totalPairs s →
      completionPercentage s =
        mathRound (((s.matchedPairs : ℚ) / (totalPairs s : ℚ)) * 100) ∧
      completionPercentage s =
        ((200 * s.matchedPairs + totalPairs s) / (2 * totalPairs s) : Nat)) := by
  constructor
  · intro h
    simp [completionPercentage, h]
  · intro h
    refine ⟨by simp [completionPercentage, h], ?_⟩
    have htp : ((totalPairs s : ℚ)) ≠ 0 := by
      exact_mod_cast Nat.pos_iff_ne_zero.mp h
    have hq : ((s.matchedPairs : ℚ) / (totalPairs s : ℚ)) * 100 + 1 / 2 =
        ((200 * s.matchedPairs + totalPairs s : Nat) : ℚ) /
          ((2 * totalPairs s : Nat) : ℚ) := by
      push_cast
      field_simp
      ring
    simp only [completionPercentage, if_pos h, mathRound, hq,
      Rat.floor_natCast_div_natCast]
    exact (Int.ofNat_ediv _ _).symm

/-- C9: `isHighScore` accepts exactly when the stored leaderboard is below
`MAX_HIGH_SCORES` entries or the candidate strictly beats the last stored
entry's score; in particular a full board rejects a tie with the minimum, and
a non-full board accepts everything. -/
theorem isHighScore_characterization (stored : List HighScore) (score : Int) :
    (isHighScore stored score = true ↔
      stored.length < MAX_HIGH_SCORES ∨
        ∃ lowest, stored.getLast? = some lowest ∧ lowest.score < score) ∧
    (stored.length < MAX_HIGH_SCORES → isHighScore stored score = true) ∧
    (∀ lowest, stored.length = MAX_HIGH_SCORES → stored.getLast? = some lowest →
      score = lowest.score → isHighScore stored score = false) := by
  refine ⟨?_, ?_, ?_⟩
  · by_cases hlt : stored.length < MAX_HIGH_SCORES
    · simp [isHighScore, hlt]
    · cases hlast : stored.getLast? with
      | none => simp [isHighScore, hlt, hlast]
      | some lowest => simp [isHighScore, hlt, hlast]
  · intro hlt
    simp [isHighScore, hlt]
  · intro lowest hlen hlast heq
    simp [isHighScore, hlen, hlast, heq]

/-- C9 witness: the concrete full leaderboard (minimum score 55) rejects a
candidate scoring exactly 55, and an empty leaderboard accepts a 0 score. -/
theorem isHighScore_characterization_witness :
    isHighScore sampleLeaderboard 55 = false ∧ isHighScore [] 0 = true := by
  refine ⟨?_, ?_⟩
  · exact (isHighScore_characterization sampleLeaderboard 55).2.2
      (mkEntry "e10" 19 55) (by decide) (by decide) (by decide)
  · exact (isHighScore_characterization [] 0).2.1 (by decide)

/-- C7: in an in-progress session, clicking a card that is already matched or
already flipped is rejected by `canFlipCard`, so `handleCardClick` leaves the
session unchanged and schedules no comparison — no flip, no move increment,
no change to `flippedCards`. -/
theorem handleCardClick_rejects_matched_or_flipped
    (s : GameSession) (cardId : String) (card : Card)
    (_hstarted : s.isGameStarted = true) (_hcomplete : s.isGameComplete = false)
    (hfind : s.cards.find? (fun c => c.id == cardId) = some card)
    (hcard : card.isMatched = true ∨ card.isFlipped = true) :
    handleCardClick s cardId = (s, none) := by
  have hcan : canFlipCard s card = false := by
    unfold canFlipCard
    rcases hcard with h | h <;> simp [h]
  simp [handleCardClick, hfind, hcan]

/-- C7 witness: clicking the face-up card "a" of the concrete in-progress
session a second time is a no-op. -/
theorem handleCardClick_rejects_matched_or_flipped_witness :
    handleCardClick inProgressSession "a" = (inProgressSession, none) := by
  exact handleCardClick_rejects_matched_or_flipped inProgressSession "a"
    (mkCard "a" "🐶" "pair-0" true false) rfl rfl (by decide) (Or.inr rfl)

/-- C1 (divergence witness): on the concrete NotStarted session with a fresh
deck, clicking card "a" — a card of the deck, face-down — leaves the session
entirely unchanged: `canFlipCard` returns false because `isGameStarted` is
false, so the auto-start branch of `handleCardClick` is unreachable and the
session neither transitions to InProgress nor flips the card. -/
theorem handleCardClick_notStarted_noop :
    freshSession.isGameStarted = false ∧
    freshSession.cards.find? (fun c => c.id == "a") =
      some (mkCard "a" "🐶" "pair-0" false false) ∧
    (∀ c ∈ freshSession.cards, c.isFlipped = false ∧ c.isMatched = false) ∧
    handleCardClick freshSession "a" = (freshSession, none) := by
  refine ⟨rfl, by decide, by decide, by decide⟩

/-- C3: the completion transition fires at most once per session.  Once the
session is complete, `handleCardClick` is a no-op; once the one-shot flag
`gameCompleteTriggeredRef` is set, both `handleGameCompletion` and the
completion-check effect are the identity (no further notification); and an
untriggered run of `handleGameCompletion` sets the flag and schedules exactly
one completion notification. -/
theorem completion_fires_at_most_once (s : GameSession) (cardId newId now : String) :
    (s.isGameComplete = true → handleCardClick s cardId = (s, none)) ∧
    (s.gameCompleteTriggered = true →
      handleGameCompletion newId now s = s ∧ checkCompletion newId now s = s) ∧
    (s.gameCompleteTriggered = false →
      (handleGameCompletion newId now s).completionNotifications =
        s.completionNotifications + 1 ∧
      (handleGameCompletion newId now s).gameCompleteTriggered = true) := by
  refine ⟨?_, ?_, ?_⟩
  · intro h
    cases hfind : s.cards.find? (fun c => c.id == cardId) with
    | none => simp [handleCardClick, hfind]
    | some card =>
      have hcan : canFlipCard s card = false := by
        unfold canFlipCard
        simp [h]
      simp [handleCardClick, hfind, hcan]
  · intro h
    constructor
    · simp [handleGameCompletion, h]
    · simp [checkCompletion, h]
  · intro h
    constructor
    · simp [handleGameCompletion, h, apply_ite]
    · simp [handleGameCompletion, h, apply_ite]

/-- C3 witness: on the concrete completed session (flag already set) a click
is a no-op and `handleGameCompletion` is the identity; on the same session
with the flag cleared, one completion notification is scheduled. -/
theorem completion_fires_at_most_once_witness :
    handleCardClick completedSession "a" = (completedSession, none) ∧
    handleGameCompletion "fresh-id" "2026-01-02" completedSession = completedSession ∧
    (handleGameCompletion "fresh-id" "2026-01-02"
        { completedSession with gameCompleteTriggered := false }).completionNotifications =
      1 := by
  refine ⟨?_, ?_, ?_⟩
  · exact (completion_fires_at_most_once completedSession "a" "fresh-id" "2026-01-02").1 rfl
  · exact ((completion_fires_at_most_once completedSession "a" "fresh-id" "2026-01-02").2.1 rfl).1
  · exact ((completion_fires_at_most_once
      { completedSession with gameCompleteTriggered := false }
      "a" "fresh-id" "2026-01-02").2.2 rfl).1

/-- C8: when exactly one pair remains unmatched and the engine is idle, the
auto-resolve effect marks both remaining cards as matched (they form a pair,
so `checkCardsMatch` succeeds), increments `matchedPairs` by one, and leaves
`moves` unchanged — the auto-resolved pair does not count as a move. -/
theorem autoResolveLastPair_resolves_without_move
    (s : GameSession) (c1 c2 : Card)
    (hstarted : s.isGameStarted = true) (hpaused : s.isGamePaused = false)
    (hproc : s.isProcessing = false) (hcomplete : s.isGameComplete = false)
    (htp : 0 < totalPairs s) (hone : totalPairs s - s.matchedPairs = 1)
    (hfilter : s.cards.filter (fun card => !card.isMatched) = [c1, c2])
    (hmatch : checkCardsMatch c1 c2 = true) :
    (autoResolveLastPair s).moves = s.moves ∧
    (autoResolveLastPair s).matchedPairs = s.matchedPairs + 1 ∧
    (∀ c ∈ (autoResolveLastPair s).cards,
      (c.id = c1.id ∨ c.id = c2.id) → c.isMatched = true ∧ c.isFlipped = true) := by
  have hres : autoResolveLastPair s =
      { s with
        isProcessing := false,
        cards := (((s.cards.map (fun card =>
            if card.id == c1.id then { card with isFlipped := true } else card)).map
              (fun card =>
            if card.id == c2.id then { card with isFlipped := true } else card)).map
              (fun (card : Card) =>
            if card.id == c1.id || card.id == c2.id then
              { card with isMatched := true, isFlipped := true }
            else card)),
        matchedPairs := s.matchedPairs + 1, flippedCards := [] } := by
    unfold autoResolveLastPair
    rw [if_pos (by simp [hstarted, hpaused, hproc, hcomplete, htp, hone])]
    rw [hfilter]
    simp only [flipCard]
    rw [if_pos hmatch]
  refine ⟨by rw [hres], by rw [hres], ?_⟩
  rw [hres]
  intro c hc hid
  simp only [List.mem_map] at hc
  obtain ⟨b, _hb, rfl⟩ := hc
  by_cases h : (b.id == c1.id || b.id == c2.id) = true
  · simp [h]
  · rw [if_neg (by simp [h])]
    rw [if_neg (by simp [h])] at hid
    exfalso
    simp only [Bool.or_eq_true, beq_iff_eq] at h
    push_neg at h
    rcases hid with h1 | h1
    · exact h.1 h1
    · exact h.2 h1

/-- C8 witness: on the concrete session with only pair-1 unmatched, the
auto-resolve effect matches cards "c" and "d" while `moves` stays at 1. -/
theorem autoResolveLastPair_resolves_without_move_witness :
    (autoResolveLastPair lastPairSession).moves = lastPairSession.moves ∧
    (autoResolveLastPair lastPairSession).matchedPairs =
      lastPairSession.matchedPairs + 1 := by
  have h := autoResolveLastPair_resolves_without_move lastPairSession
    (mkCard "c" "🐱" "pair-1" false false) (mkCard "d" "🐱" "pair-1" false false)
    rfl rfl rfl rfl (by decide) (by decide) (by decide) (by decide)
  exact ⟨h.1, h.2.1⟩

theorem highScoreLE_iff (a b : HighScore) :
    highScoreLE a b = true ↔
      (a.score = b.score ∧ a.time ≤ b.time) ∨ b.score < a.score := by
  unfold highScoreLE
  by_cases h : a.score = b.score <;> simp [h]

theorem highScoreLE_trans (a b c : HighScore) (hab : highScoreLE a b = true)
    (hbc : highScoreLE b c = true) : highScoreLE a c = true := by
  rw [highScoreLE_iff] at *
  omega

theorem highScoreLE_total (a b : HighScore) :
    (highScoreLE a b || highScoreLE b a) = true := by
  rw [Bool.or_eq_true, highScoreLE_iff, highScoreLE_iff]
  omega

theorem highScoreLE_score_le (x d : HighScore) (h : highScoreLE x d = true) :
    d.score ≤ x.score := by
  rw [highScoreLE_iff] at h
  omega

theorem highScoreLE_eq_false_of_lt (x d : HighScore) (h : x.score < d.score) :
    highScoreLE x d = false := by
  rw [Bool.eq_false_iff, Ne, highScoreLE_iff]
  omega

/-- Auxiliary fact for the full-leaderboard admission claims: when the stored
list has exactly `MAX_HIGH_SCORES` entries, `addHighScore` drops exactly one
entry `d`, which sorts after everything kept. -/
theorem addHighScore_full_drops_one (stored : List HighScore) (new : HighScore)
    (hlen : stored.length = MAX_HIGH_SCORES) :
    ∃ d, addHighScore stored new ++ [d] ~ new :: stored ∧
      (∀ x ∈ addHighScore stored new, highScoreLE x d = true) := by
  set M := List.mergeSort (stored ++ [new]) highScoreLE with hMdef
  have hM : M ~ stored ++ [new] := List.mergeSort_perm _ _
  have hMs : M.Pairwise (fun a b => highScoreLE a b = true) :=
    List.sorted_mergeSort highScoreLE_trans highScoreLE_total _
  have hMlen : M.length = MAX_HIGH_SCORES + 1 := by
    rw [hM.length_eq, List.length_append, hlen, List.length_singleton]
  have hdroplen : (M.drop MAX_HIGH_SCORES).length = 1 := by
    rw [List.length_drop, hMlen, Nat.add_sub_cancel_left]
  obtain ⟨d, hd⟩ := List.length_eq_one.mp hdroplen
  have hsave : addHighScore stored new = M.take MAX_HIGH_SCORES := rfl
  have hMsplit : M.take MAX_HIGH_SCORES ++ [d] = M := by
    rw [← hd, List.take_append_drop]
  refine ⟨d, ?_, ?_⟩
  · rw [hsave, hMsplit]
    exact hM.trans (List.perm_append_singleton new stored)
  · intro x hx
    rw [hsave] at hx
    have := hMsplit ▸ hMs
    rw [List.pairwise_append] at this
    exact this.2.2 x hx d (List.mem_singleton_self d)

/-- C4: with the leaderboard at its maximum length, `addHighScore` with a
score strictly below the current minimum leaves the stored entries unchanged
(as a multiset); with a score strictly above the minimum it inserts the new
entry and evicts a minimal-score entry; and unconditionally the stored result
is sorted score-descending / time-ascending and holds at most
`MAX_HIGH_SCORES` entries. -/
theorem addHighScore_admission_and_sorted (stored : List HighScore)
    (new : HighScore) :
    (stored.length = MAX_HIGH_SCORES → (∀ e ∈ stored, new.score < e.score) →
      addHighScore stored new ~ stored) ∧
    (stored.length = MAX_HIGH_SCORES →
      (∃ m, m ∈ stored ∧ m.score < new.score ∧ ∀ e ∈ stored, m.score ≤ e.score) →
      ∃ d, d ∈ stored ∧ (∀ e ∈ stored, d.score ≤ e.score) ∧
        addHighScore stored new ~ new :: stored.erase d) ∧
    ((addHighScore stored new).Pairwise (fun a b => highScoreLE a b = true) ∧
      (addHighScore stored new).length ≤ MAX_HIGH_SCORES) := by
  refine ⟨?_, ?_, ?_, ?_⟩
  · intro hlen hlow
    obtain ⟨d, hperm, hle⟩ := addHighScore_full_drops_one stored new hlen
    have hdmem : d ∈ new :: stored := hperm.subset (by simp)
    by_cases hdnew : d = new
    · have hcancel : addHighScore stored new ++ [new] ~ stored ++ [new] := by
        rw [hdnew] at hperm
        exact hperm.trans (List.perm_append_singleton new stored).symm
      exact (List.perm_append_right_iff [new]).mp hcancel
    · exfalso
      have hdstored : d ∈ stored := by
        rcases List.mem_cons.mp hdmem with h | h
        · exact absurd h hdnew
        · exact h
      have hnewmem : new ∈ addHighScore stored new ++ [d] :=
        hperm.symm.subset (by simp)
      have hnewtake : new ∈ addHighScore stored new := by
        rcases List.mem_append.mp hnewmem with h | h
        · exact h
        · exact absurd (List.mem_singleton.mp h).symm hdnew
      have := hle new hnewtake
      rw [highScoreLE_eq_false_of_lt new d (hlow d hdstored)] at this
      exact Bool.false_ne_true this
  · intro hlen hmin
    obtain ⟨m, hm, hmlt, hmmin⟩ := hmin
    obtain ⟨d, hperm, hle⟩ := addHighScore_full_drops_one stored new hlen
    have hdmem : d ∈ new :: stored := hperm.subset (by simp)
    have hdle : ∀ e ∈ stored, d.score ≤ e.score := by
      intro e he
      have hemem : e ∈ addHighScore stored new ++ [d] :=
        hperm.symm.subset (List.mem_cons_of_mem new he)
      rcases List.mem_append.mp hemem with h | h
      · exact highScoreLE_score_le e d (hle e h)
      · rw [List.mem_singleton.mp h]
    have hdnew : d ≠ new := by
      intro h
      have := hdle m hm
      rw [h] at this
      omega
    have hdstored : d ∈ stored := by
      rcases List.mem_cons.mp hdmem with h | h
      · exact absurd h hdnew
      · exact h
    refine ⟨d, hdstored, hdle, ?_⟩
    have hcancel : addHighScore stored new ++ [d] ~ (new :: stored.erase d) ++ [d] := by
      refine hperm.trans ?_
      have h1 : new :: stored ~ new :: (d :: stored.erase d) :=
        (List.perm_cons_erase hdstored).cons new
      have h2 : new :: (d :: stored.erase d) ~ d :: (new :: stored.erase d) :=
        List.Perm.swap d new _
      have h3 : d :: (new :: stored.erase d) ~ (new :: stored.erase d) ++ [d] :=
        (List.perm_append_singleton d _).symm
      exact (h1.trans h2).trans h3
    exact (List.perm_append_right_iff [d]).mp hcancel
  · exact (List.sorted_mergeSort highScoreLE_trans highScoreLE_total _).sublist
      (List.take_sublist _ _)
  · calc (addHighScore stored new).length
        = min MAX_HIGH_SCORES (List.mergeSort (stored ++ [new]) highScoreLE).length := by
          simp [addHighScore, saveHighScores]
      _ ≤ MAX_HIGH_SCORES := Nat.min_le_left _ _

/-- C4 witness: on the concrete full leaderboard (minimum 55), a score of 10
is rejected (membership unchanged), and the result of adding any entry is
sorted and within bounds. -/
theorem addHighScore_admission_and_sorted_witness :
    addHighScore sampleLeaderboard (mkEntry "loser" 20 10) ~ sampleLeaderboard ∧
    (addHighScore sampleLeaderboard (mkEntry "winner" 20 200)).length ≤
      MAX_HIGH_SCORES := by
  constructor
  · exact (addHighScore_admission_and_sorted sampleLeaderboard
      (mkEntry "loser" 20 10)).1 (by decide) (by decide)
  · exact (addHighScore_admission_and_sorted sampleLeaderboard
      (mkEntry "winner" 20 200)).2.2.2

theorem listSwap_perm [DecidableEq α] (l : List α) (i j : Nat) :
    listSwap l i j ~ l := by
  unfold listSwap
  cases hi : l[i]? with
  | none => cases l[j]? <;> exact List.Perm.refl l
  | some a =>
    cases hj : l[j]? with
    | none => exact List.Perm.refl l
    | some b =>
      obtain ⟨hil, hia⟩ := List.getElem?_eq_some_iff.mp hi
      obtain ⟨hjl, hjb⟩ := List.getElem?_eq_some_iff.mp hj
      have hmem : a ∈ l := hia ▸ List.getElem_mem hil
      have hjl' : j < (l.set i b).length := by simpa using hjl
      rw [List.perm_iff_count]
      intro x
      rw [List.count_set _ _ _ _ hjl', List.count_set _ _ _ _ hil,
        List.getElem_set, hia]
      by_cases hax : a = x
      · have h1 : 0 < l.count x := List.count_pos_iff.mpr (hax ▸ hmem)
        by_cases hij : i = j <;> by_cases hbx : b = x <;>
          simp [hij, hbx, hax, hjb] <;> omega
      · by_cases hij : i = j <;> by_cases hbx : b = x <;>
          simp [hij, hbx, hax, hjb]

theorem fisherYatesGo_perm [DecidableEq α] (rnd : Nat → Nat) (n : Nat)
    (l : List α) : fisherYatesGo rnd n l ~ l := by
  induction n generalizing l with
  | zero => exact List.Perm.refl l
  | succ i ih =>
    exact (ih _).trans (listSwap_perm l (i + 1) (rnd (i + 1) % (i + 2)))

theorem shuffleArray_perm [DecidableEq α] (rnd : Nat → Nat) (l : List α) :
    shuffleArray rnd l ~ l :=
  fisherYatesGo_perm rnd (l.length - 1) l

theorem getCardTheme_cards_length (themeId : String) :
    (getCardTheme themeId).cards.length = 10 := by
  unfold getCardTheme
  cases hfind : CARD_THEMES.find? (fun t => t.id == themeId) with
  | none => decide
  | some theme =>
    have hall : ∀ t ∈ CARD_THEMES, t.cards.length = 10 := by decide
    exact hall theme (List.mem_of_find?_eq_some hfind)

theorem buildPairs_length (ids : Nat → String) (vs : List String) (k : Nat) :
    (buildPairs ids vs k).length = 2 * vs.length := by
  induction vs generalizing k with
  | nil => simp [buildPairs]
  | cons v rest ih =>
    simp only [buildPairs, List.length_cons, ih (k + 1), List.length_cons]
    omega

theorem buildPairs_flags (ids : Nat → String) (vs : List String) (k : Nat) :
    ∀ c ∈ buildPairs ids vs k, c.isFlipped = false ∧ c.isMatched = false := by
  induction vs generalizing k with
  | nil => simp [buildPairs]
  | cons v rest ih =>
    intro c hc
    simp only [buildPairs, List.mem_cons] at hc
    rcases hc with rfl | rfl | hc
    · exact ⟨rfl, rfl⟩
    · exact ⟨rfl, rfl⟩
    · exact ih (k + 1) c hc

theorem buildPairs_pairId_mem (ids : Nat → String) (vs : List String) (k : Nat) :
    ∀ p ∈ (buildPairs ids vs k).map Card.pairId,
      ∃ i, k ≤ i ∧ i < k + vs.length ∧ p = "pair-" ++ toString i := by
  induction vs generalizing k with
  | nil => simp [buildPairs]
  | cons v rest ih =>
    intro p hp
    simp only [buildPairs, List.map_cons, List.mem_cons] at hp
    rcases hp with rfl | rfl | hp
    · exact ⟨k, Nat.le_refl k, by simp, rfl⟩
    · exact ⟨k, Nat.le_refl k, by simp, rfl⟩
    · obtain ⟨i, h1, h2, h3⟩ := ih (k + 1) p hp
      exact ⟨i, by omega, by simp at h2 ⊢; omega, h3⟩

theorem pairTag_inj :
    ∀ i < 10, ∀ j < 10, ("pair-" ++ toString i = "pair-" ++ toString j) → i = j := by
  decide

theorem buildPairs_pairId_count (ids : Nat → String) (vs : List String) (k : Nat)
    (hbound : k + vs.length ≤ 10) :
    ∀ p ∈ (buildPairs ids vs k).map Card.pairId,
      ((buildPairs ids vs k).map Card.pairId).count p = 2 := by
  induction vs generalizing k with
  | nil => simp [buildPairs]
  | cons v rest ih =>
    intro p hp
    simp only [buildPairs, List.map_cons, List.mem_cons] at hp
    have hk10 : k < 10 := by simp at hbound; omega
    have hnotin : ("pair-" ++ toString k) ∉
        (buildPairs ids rest (k + 1)).map Card.pairId := by
      intro hmem
      obtain ⟨i, h1, h2, h3⟩ := buildPairs_pairId_mem ids rest (k + 1)
        ("pair-" ++ toString k) hmem
      have hi10 : i < 10 := by simp at hbound; omega
      have := pairTag_inj k hk10 i hi10 h3
      omega
    rcases hp with rfl | rfl | hp
    · simp only [buildPairs, List.map_cons, List.count_cons_self]
      rw [List.count_eq_zero.mpr hnotin]
    · simp only [buildPairs, List.map_cons, List.count_cons_self]
      rw [List.count_eq_zero.mpr hnotin]
    · obtain ⟨i, h1, h2, h3⟩ := buildPairs_pairId_mem ids rest (k + 1) p hp
      have hi10 : i < 10 := by simp at hbound ⊢; omega
      have hptag : p ≠ "pair-" ++ toString k := by
        intro heq
        have := pairTag_inj i hi10 k hk10 (heq ▸ h3).symm
        omega
      have hcount : ((buildPairs ids rest (k + 1)).map Card.pairId).count p = 2 :=
        ih (k + 1) (by simp at hbound ⊢; omega) p hp
      simp only [buildPairs, List.map_cons]
      rw [List.count_cons_of_ne, List.count_cons_of_ne] <;>
        first
          | exact hcount
          | (intro h; exact hptag (by simpa using h))

theorem buildPairs_id_mem (ids : Nat → String) (vs : List String) (k : Nat) :
    ∀ x ∈ (buildPairs ids vs k).map Card.id,
      ∃ n, 2 * k ≤ n ∧ n < 2 * (k + vs.length) ∧ x = ids n := by
  induction vs generalizing k with
  | nil => simp [buildPairs]
  | cons v rest ih =>
    intro x hx
    simp only [buildPairs, List.map_cons, List.mem_cons] at hx
    rcases hx with rfl | rfl | hx
    · exact ⟨2 * k, Nat.le_refl _, by simp, rfl⟩
    · exact ⟨2 * k + 1, by omega, by simp; omega, rfl⟩
    · obtain ⟨n, h1, h2, h3⟩ := ih (k + 1) x hx
      exact ⟨n, by omega, by simp at h2 ⊢; omega, h3⟩

theorem buildPairs_id_nodup (ids : Nat → String)
    (hinj : Function.Injective ids) (vs : List String) (k : Nat) :
    ((buildPairs ids vs k).map Card.id).Nodup := by
  induction vs generalizing k with
  | nil => simp [buildPairs]
  | cons v rest ih =>
    simp only [buildPairs, List.map_cons, List.nodup_cons]
    refine ⟨?_, ?_, ih (k + 1)⟩
    · intro hmem
      rcases List.mem_cons.mp hmem with heq | hmem2
      · have := hinj heq
        omega
      · obtain ⟨n, h1, h2, h3⟩ := buildPairs_id_mem ids rest (k + 1) _ hmem2
        have := hinj h3
        omega
    · intro hmem
      obtain ⟨n, h1, h2, h3⟩ := buildPairs_id_mem ids rest (k + 1) _ hmem
      have := hinj h3
      omega

theorem witnessIds_injective : Function.Injective witnessIds := by
  intro m n h
  have hdata : (witnessIds m).data = (witnessIds n).data := by rw [h]
  simpa [witnessIds] using congrArg List.length hdata

/-- C2: for every difficulty and theme id (and any random draws and any
injective `generateId` supply), `generateCards` returns a deck of length
`2 × pairCount`, in which every `pairId` value occurs on exactly two cards,
no two cards share an `id`, and every card starts face-down and unmatched. -/
theorem generateCards_deck_integrity (rnd1 rnd2 : Nat → Nat)
    (ids : Nat → String) (hids : Function.Injective ids)
    (difficulty : Difficulty) (themeId : String) :
    (generateCards rnd1 rnd2 ids difficulty themeId).length =
      2 * ((GAME_CONFIGS difficulty).totalCards / 2) ∧
    (∀ p ∈ (generateCards rnd1 rnd2 ids difficulty themeId).map Card.pairId,
      ((generateCards rnd1 rnd2 ids difficulty themeId).map Card.pairId).count p = 2) ∧
    ((generateCards rnd1 rnd2 ids difficulty themeId).map Card.id).Nodup ∧
    (∀ c ∈ generateCards rnd1 rnd2 ids difficulty themeId,
      c.isFlipped = false ∧ c.isMatched = false) := by
  have hdeckperm : generateCards rnd1 rnd2 ids difficulty themeId ~
      buildPairs ids ((shuffleArray rnd1 (getCardTheme themeId).cards).take
        ((GAME_CONFIGS difficulty).totalCards / 2)) 0 := by
    unfold generateCards
    exact shuffleArray_perm _ _
  have htp10 : (GAME_CONFIGS difficulty).totalCards / 2 ≤ 10 := by
    cases difficulty <;> decide
  have hvslen : ((shuffleArray rnd1 (getCardTheme themeId).cards).take
      ((GAME_CONFIGS difficulty).totalCards / 2)).length =
      (GAME_CONFIGS difficulty).totalCards / 2 := by
    rw [List.length_take, (shuffleArray_perm rnd1 _).length_eq,
      getCardTheme_cards_length]
    exact Nat.min_eq_left htp10
  refine ⟨?_, ?_, ?_, ?_⟩
  · rw [hdeckperm.length_eq, buildPairs_length, hvslen]
  · intro p hp
    have hmapperm := hdeckperm.map Card.pairId
    rw [hmapperm.count_eq]
    exact buildPairs_pairId_count ids _ 0 (by omega) p (hmapperm.mem_iff.mp hp)
  · exact ((buildPairs_id_nodup ids hids _ 0).perm
      (hdeckperm.map Card.id).symm)
  · intro c hc
    exact buildPairs_flags ids _ 0 c (hdeckperm.subset hc)

/-- C2 witness: a concrete instantiation with constant random draws and the
injective replicate-based id supply, at EASY difficulty and the default theme. -/
theorem generateCards_deck_integrity_witness :
    (generateCards (fun _ => 0) (fun _ => 0) witnessIds .EASY "animals").length =
      2 * ((GAME_CONFIGS .EASY).totalCards / 2) ∧
    ((generateCards (fun _ => 0) (fun _ => 0) witnessIds .EASY "animals").map
      Card.id).Nodup := by
  have h := generateCards_deck_integrity (fun _ => 0) (fun _ => 0) witnessIds
    witnessIds_injective .EASY "animals"
  exact ⟨h.1, h.2.2.1⟩

/-- C10 witness: on the concrete 4-card session (`totalPairs = 2`,
`matchedPairs = 0`) the percentage is the exact natural-number value, and on
the same session with an empty deck it is 0. -/
theorem completionPercentage_total_function_witness :
    completionPercentage freshSession =
      ((200 * freshSession.matchedPairs + totalPairs freshSession) /
        (2 * totalPairs freshSession) : Nat) ∧
    completionPercentage { freshSession with cards := [] } = 0 := by
  refine ⟨?_, ?_⟩
  · exact ((completionPercentage_total_function freshSession).2 (by decide)).2
  · exact (completionPercentage_total_function
      { freshSession with cards := [] }).1 (by decide)
